import Mathlib

/-!
Verification of the euca-counter sample applications against their
natural-language specification.

The repository contains two near-identical counter widgets built on the
`euca` virtual-DOM library:
  * `crate/src/lib.rs` — hand-built description trees (`Dom`, `DomVec`),
    the model/update/render triple, and the `attach` / `dispatch` /
    `detach` application loop;
  * `crate.typed-html/src/lib.rs` — the same counter written with the
    `typed_html` markup front-end (its render wraps the three widgets in
    an outer `<div>`).

The shallow embedding below translates the description model and the
iterator `DomIter::dom_iter` directly from `crate/src/lib.rs`.  The
`euca` library itself (`euca::diff`, `euca::patch`) is not part of the
repository's sources; where a claim depends on it, a definition marked
"Modelled from the spec" follows the specification's diff table (§4.4).
-/

namespace Euca

/-- Opaque handle to a live browser node or listener closure
(`web_sys::Text`, `web_sys::Element`, `Closure<FnMut(Event)>`).  Only
its presence or absence in a storage cell matters to the
reconciliation layer, so it is modelled as a bare identifier. -/
abbrev Handle := Nat

/-- `enum Node` from `crate/src/lib.rs` lines 30–33: a text node with its
content and a cell for the live text-node handle, or an element with its
tag name and a cell for the live element handle. -/
inductive Node : Type where
  | text (text : String) (node : Option Handle)
  | element (name : String) (node : Option Handle)
deriving DecidableEq

/-- `struct Event<Message>` from `crate/src/lib.rs` lines 35–39: an event
binding is a trigger name, an application message, and a cell for the
installed listener closure. -/
structure Event (M : Type) : Type where
  trigger : String
  message : M
  closure : Option Handle
deriving DecidableEq

/-- `struct Dom<Message>` from `crate/src/lib.rs` lines 41–45: a node, an
optional event binding, and the list of children. -/
inductive Dom (M : Type) : Type where
  | mk (node : Node) (event : Option (Event M)) (children : List (Dom M))

/-- Projection for the `node` field of `Dom`. -/
def Dom.node {M : Type} : Dom M → Node
  | .mk n _ _ => n

/-- Projection for the `event` field of `Dom`. -/
def Dom.event {M : Type} : Dom M → Option (Event M)
  | .mk _ e _ => e

/-- Projection for the `children` field of `Dom`. -/
def Dom.children {M : Type} : Dom M → List (Dom M)
  | .mk _ _ cs => cs

/-- The state of a storage slot as surfaced by the iterator
(`euca::Storage`): `read` wraps a take-closure when the cell holds a
handle, `write` wraps an install-closure when it is empty.  The closure
semantics themselves are modelled by `takeUnwrap` and `install`. -/
inductive Storage : Type where
  | read
  | write
deriving DecidableEq

/-- The storage slot produced for a cell, mirroring the two `match node`
arms of `dom_iter` (lines 57–60, 66–69, 77–80): `Some(_)` yields a
`Storage::Read`, `None` yields a `Storage::Write`. -/
def storageOf (cell : Option Handle) : Storage :=
  match cell with
  | some _ => Storage.read
  | none => Storage.write

/-- Semantics of the take-closure `move || node.take().unwrap()` built in
the `Storage::Read` arm: `Option::take` empties the cell and returns its
previous content, and `unwrap` panics (here: `none`) when that content
was absent.  On success the result pairs the extracted handle with the
cell's new (empty) state. -/
def takeUnwrap (cell : Option Handle) : Option (Handle × Option Handle) :=
  match cell with
  | some h => some (h, none)
  | none => none

/-- Semantics of the install-closure `move |n| *node = Some(n)` built in
the `Storage::Write` arm: the cell afterwards holds the new handle. -/
def install (_cell : Option Handle) (h : Handle) : Option Handle :=
  some h

/-- `euca::DomItem`: one atomic item of the linear stream — a text
opener, an element opener, an event item, or the end-of-subtree marker
`Up`.  The storage component records whether the corresponding cell was
occupied (`read`) or empty (`write`) when the iterator was created. -/
inductive DomItem (M : Type) : Type where
  | text (text : String) (node : Storage)
  | element (element : String) (node : Storage)
  | event (trigger : String) (message : M) (closure : Storage)
  | up
deriving DecidableEq

/-- The opener item produced for a `Node` by the `iter::once(&mut
self.node).map(...)` head of `dom_iter` (lines 52–72). -/
def openerItem {M : Type} (n : Node) : DomItem M :=
  match n with
  | .text t cell => DomItem.text t (storageOf cell)
  | .element name cell => DomItem.element name (storageOf cell)

/-- The event items produced by the `.chain(self.event.iter_mut().map(...))`
segment of `dom_iter` (lines 73–82): an empty option contributes nothing,
a present binding contributes one `DomItem.event`. -/
def eventItems {M : Type} (e : Option (Event M)) : List (DomItem M) :=
  match e with
  | none => []
  | some ev => [DomItem.event ev.trigger ev.message (storageOf ev.closure)]

mutual

/-- `DomIter::dom_iter` for `Dom` (`crate/src/lib.rs` lines 50–89): the
opener item, chained with the event items, chained with the flat-mapped
streams of the children, terminated by a single `Up`. -/
def dom_iter {M : Type} : Dom M → List (DomItem M)
  | .mk n e cs => openerItem n :: (eventItems e ++ (childIter cs ++ [DomItem.up]))

/-- The `children.iter_mut().flat_map(|c| c.dom_iter())` segment of
`dom_iter` (lines 83–85), unrolled over the child list. -/
def childIter {M : Type} : List (Dom M) → List (DomItem M)
  | [] => []
  | c :: cs => dom_iter c ++ childIter cs

end

end Euca

namespace Euca

/-- `enum Msg` from `crate/src/lib.rs` lines 18–22 (textually identical in
`crate.typed-html/src/lib.rs` lines 19–23). -/
inductive Msg : Type where
  | Increment
  | Decrement
deriving DecidableEq

/-- Normalise an integer to the two's-complement `i32` range
`[-2^31, 2^31)`.  This models the release-profile semantics of Rust's
`+=` / `-=` on `i32` (overflow-checks off: wrap modulo `2^32`). -/
def wrap32 (z : Int) : Int :=
  (z + 2 ^ 31) % 2 ^ 32 - 2 ^ 31

/-- `Update::update` for `Model` (`crate/src/lib.rs` lines 136–143; the
typed-html variant at `crate.typed-html/src/lib.rs` lines 47–54 has the
same two match arms): `Increment` adds one to the stored `i32`,
`Decrement` subtracts one, with `i32` wrap-around semantics. -/
def update (m : Int) (msg : Msg) : Int :=
  match msg with
  | .Increment => wrap32 (m + 1)
  | .Decrement => wrap32 (m - 1)

/-- `fn button` (`crate/src/lib.rs` lines 92–114): a `button` element with
one `click` binding and a single text child. -/
def button (text : String) (msg : Msg) : Dom Msg :=
  Dom.mk (Node.element "button" none)
    (some { trigger := "click", message := msg, closure := none })
    [Dom.mk (Node.text text none) none []]

/-- `fn counter` (`crate/src/lib.rs` lines 116–134): a `div` element with
no binding and a single text child showing the count. -/
def counter (count : Int) : Dom Msg :=
  Dom.mk (Node.element "div" none) none
    [Dom.mk (Node.text (toString count) none) none []]

/-- `struct DomVec<Msg>(Vec<Dom<Msg>>)` (`crate/src/lib.rs` line 155). -/
structure DomVec (M : Type) : Type where
  val : List (Dom M)

/-- `DomIter::dom_iter` for `DomVec` (`crate/src/lib.rs` lines 157–163):
`self.0.iter_mut().flat_map(|i| i.dom_iter())`. -/
def DomVec.dom_iter {M : Type} (v : DomVec M) : List (DomItem M) :=
  v.val.flatMap Euca.dom_iter

/-- `Render::render` for `Model` (`crate/src/lib.rs` lines 145–153): a
`DomVec` of the plus button, the counter `div`, and the minus button. -/
def render (m : Int) : DomVec Msg :=
  DomVec.mk [button "+" Msg.Increment, counter m, button "-" Msg.Decrement]

/-- Modelled from the spec: `Render::render` of the typed-html variant
(`crate.typed-html/src/lib.rs` lines 56–67) builds its tree through the
`typed_html` macro and the `euca::dom::Dom` builder, which live outside
this repository's sources.  Per the spec's initial-mount scenario and the
variant's own `basic_render` test (lines 124–149), the resulting
description is an outer `div` enclosing the plus button, the counter
`div`, and the minus button. -/
def typedHtmlRender (m : Int) : Dom Msg :=
  Dom.mk (Node.element "div" none) none
    [button "+" Msg.Increment, counter m, button "-" Msg.Decrement]

theorem dom_iter_mk {M : Type} (n : Node) (e : Option (Event M)) (cs : List (Dom M)) :
    dom_iter (Dom.mk n e cs) = openerItem n :: (eventItems e ++ (childIter cs ++ [DomItem.up])) := by
  rw [dom_iter]

/-- `childIter` is exactly the concatenation of the per-child streams. -/
theorem childIter_eq_join {M : Type} (cs : List (Dom M)) :
    childIter cs = (cs.map dom_iter).flatten := by
  induction cs with
  | nil => rw [childIter]; simp
  | cons c cs ih => rw [childIter]; simp [ih]

/-- An item is an opener when it introduces a node: a `Text` or an
`Element` item. -/
def isOpener {M : Type} : DomItem M → Bool
  | .text _ _ => true
  | .element _ _ => true
  | .event _ _ _ => false
  | .up => false

/-- An item is the end-of-subtree marker. -/
def isUp {M : Type} : DomItem M → Bool
  | .up => true
  | _ => false

/-- Nesting check for an item stream: scanning left to right, an opener
pushes a subtree, `Up` closes the innermost open subtree (and fails when
none is open), event items are neutral, and at the end of the stream
every opened subtree must have been closed.  `nestOk s d` checks `s`
starting with `d` subtrees already open. -/
def nestOk {M : Type} : List (DomItem M) → Nat → Bool
  | [], d => d == 0
  | DomItem.up :: rest, d =>
    match d with
    | 0 => false
    | Nat.succ d' => nestOk rest d'
  | DomItem.text _ _ :: rest, d => nestOk rest (d + 1)
  | DomItem.element _ _ :: rest, d => nestOk rest (d + 1)
  | DomItem.event _ _ _ :: rest, d => nestOk rest d

theorem nestOk_eventItems {M : Type} (e : Option (Event M)) (s : List (DomItem M)) (d : Nat) :
    nestOk (eventItems e ++ s) d = nestOk s d := by
  cases e with
  | none => rw [eventItems]; rw [List.nil_append]
  | some ev => rw [eventItems]; simp only [List.cons_append, List.nil_append]; rw [nestOk]

mutual

theorem nestOk_dom_iter {M : Type} (t : Dom M) (s : List (DomItem M)) (d : Nat) :
    nestOk (dom_iter t ++ s) d = nestOk s d := by
  match t with
  | .mk n e cs =>
    rw [dom_iter]
    match n with
    | .text txt cell =>
      simp only [openerItem, List.cons_append, List.append_assoc]
      rw [nestOk, nestOk_eventItems, nestOk_childIter]
      simp only [List.cons_append, List.nil_append]
      rw [nestOk]
    | .element name cell =>
      simp only [openerItem, List.cons_append, List.append_assoc]
      rw [nestOk, nestOk_eventItems, nestOk_childIter]
      simp only [List.cons_append, List.nil_append]
      rw [nestOk]

theorem nestOk_childIter {M : Type} (cs : List (Dom M)) (s : List (DomItem M)) (d : Nat) :
    nestOk (childIter cs ++ s) d = nestOk s d := by
  match cs with
  | [] => rw [childIter]; rfl
  | c :: cs' =>
    rw [childIter]
    rw [List.append_assoc]
    rw [nestOk_dom_iter c, nestOk_childIter cs']

end

mutual

theorem countUp_dom_iter {M : Type} (t : Dom M) :
    (dom_iter t).countP isUp = (dom_iter t).countP isOpener := by
  match t with
  | .mk n e cs =>
    rw [dom_iter]
    have hcs := countUp_childIter (M := M) cs
    cases n <;> cases e <;>
      simp [openerItem, eventItems, List.countP_cons, List.countP_append, isUp, isOpener, hcs]

theorem countUp_childIter {M : Type} (cs : List (Dom M)) :
    (childIter cs).countP isUp = (childIter cs).countP isOpener := by
  match cs with
  | [] => rw [childIter]; rfl
  | c :: cs' =>
    rw [childIter]
    rw [List.countP_append, List.countP_append,
      countUp_dom_iter c, countUp_childIter cs']

end

/-- Modelled from the spec: the patch operations of §4.4's diff table
(`euca::diff`'s output vocabulary; the `euca` library is not part of this
repository's sources).  A "create" operation stands for the spec's
create-and-append-to-current-parent step, and `up` is the spec's
*ParentUp* cursor pop. -/
inductive Patch (M : Type) : Type where
  | createElement (name : String)
  | createText (text : String)
  | addListener (trigger : String) (message : M)
  | up
  | removeElement
  | removeText
  | removeListener
  | retainElement
  | retainText
  | updateText (text : String)
  | replaceElement (name : String)
  | retainListener (message : M)
deriving DecidableEq

/-- Modelled from the spec: the patch emitted for a new-side item when
the old side is absent (§4.4 rows "absent / …"). -/
def createPatch {M : Type} : DomItem M → Patch M
  | .element name _ => Patch.createElement name
  | .text t _ => Patch.createText t
  | .event trigger message _ => Patch.addListener trigger message
  | .up => Patch.up

/-- Modelled from the spec: the patch emitted for an old-side item when
the new side is absent (§4.4 rows "… / absent"). -/
def removePatch {M : Type} : DomItem M → Patch M
  | .element _ _ => Patch.removeElement
  | .text _ _ => Patch.removeText
  | .event _ _ _ => Patch.removeListener
  | .up => Patch.up

/-- Split an item stream after the `Up` that closes an already-consumed
opener: `splitSub s d` scans `s` with `d` further subtrees currently
open, and returns the items up to and including the matching `Up`
together with the remainder of the stream. -/
def splitSub {M : Type} : List (DomItem M) → Nat → List (DomItem M) × List (DomItem M)
  | [], _ => ([], [])
  | DomItem.up :: rest, 0 => ([DomItem.up], rest)
  | DomItem.up :: rest, Nat.succ d =>
    (DomItem.up :: (splitSub rest d).1, (splitSub rest d).2)
  | DomItem.text t s :: rest, d =>
    (DomItem.text t s :: (splitSub rest (d + 1)).1, (splitSub rest (d + 1)).2)
  | DomItem.element n s :: rest, d =>
    (DomItem.element n s :: (splitSub rest (d + 1)).1, (splitSub rest (d + 1)).2)
  | DomItem.event t m c :: rest, d =>
    (DomItem.event t m c :: (splitSub rest d).1, (splitSub rest d).2)

theorem splitSub_snd_length_le {M : Type} (l : List (DomItem M)) :
    ∀ d : Nat, ((splitSub l d).2).length ≤ l.length := by
  induction l with
  | nil => intro d; rw [splitSub]
  | cons i rest ih =>
    intro d
    cases i with
    | up =>
      cases d with
      | zero => rw [splitSub]; simp
      | succ d' => rw [splitSub]; exact (ih d').trans (Nat.le_succ _)
    | text t s => rw [splitSub]; exact (ih (d + 1)).trans (Nat.le_succ _)
    | element n s => rw [splitSub]; exact (ih (d + 1)).trans (Nat.le_succ _)
    | event t m c => rw [splitSub]; exact (ih d).trans (Nat.le_succ _)

/-- Modelled from the spec: `euca::diff` per §4.4 — a positional,
depth-first, single-pass walk of the two item streams.  When one side is
exhausted the other is drained as creations (new side) or removals (old
side); matching openers compare names/values and either retain, update,
or replace (replacement discards the whole old subtree and creates the
whole new subtree); listeners are matched positionally on their trigger;
a mixed text/element pairing is remove-then-insert of the two subtrees;
an opener paired against `Up` drains the surplus old (resp. new) subtree
as removals (resp. creations). -/
def diff {M : Type} : List (DomItem M) → List (DomItem M) → List (Patch M)
  | [], [] => []
  | [], n :: news => createPatch n :: diff [] news
  | o :: olds, [] => removePatch o :: diff olds []
  | DomItem.element n1 _ :: olds, DomItem.element n2 _ :: news =>
    if n1 = n2 then
      Patch.retainElement :: diff olds news
    else
      Patch.replaceElement n2 :: (splitSub news 0).1.map createPatch
        ++ diff (splitSub olds 0).2 (splitSub news 0).2
  | DomItem.text t1 _ :: olds, DomItem.text t2 _ :: news =>
    (if t1 = t2 then Patch.retainText else Patch.updateText t2) :: diff olds news
  | DomItem.event t1 _ _ :: olds, DomItem.event t2 m2 _ :: news =>
    (if t1 = t2 then [Patch.retainListener m2]
     else [Patch.removeListener, Patch.addListener t2 m2]) ++ diff olds news
  | DomItem.up :: olds, DomItem.up :: news => Patch.up :: diff olds news
  | DomItem.text _ _ :: olds, DomItem.element n2 _ :: news =>
    Patch.removeText :: (splitSub olds 0).1.map removePatch
      ++ (Patch.createElement n2 :: (splitSub news 0).1.map createPatch)
      ++ diff (splitSub olds 0).2 (splitSub news 0).2
  | DomItem.element _ _ :: olds, DomItem.text t2 _ :: news =>
    Patch.removeElement :: (splitSub olds 0).1.map removePatch
      ++ (Patch.createText t2 :: (splitSub news 0).1.map createPatch)
      ++ diff (splitSub olds 0).2 (splitSub news 0).2
  | DomItem.event _ _ _ :: olds, n :: news =>
    Patch.removeListener :: diff olds (n :: news)
  | o :: olds, DomItem.event t2 m2 _ :: news =>
    Patch.addListener t2 m2 :: diff (o :: olds) news
  | o :: olds, DomItem.up :: news =>
    removePatch o :: (splitSub olds 0).1.map removePatch
      ++ diff (splitSub olds 0).2 (DomItem.up :: news)
  | DomItem.up :: olds, n :: news =>
    createPatch n :: (splitSub news 0).1.map createPatch
      ++ diff (DomItem.up :: olds) (splitSub news 0).2
termination_by old new => old.length + new.length
decreasing_by
  all_goals simp_wf
  all_goals
    first
    | omega
    | (have h1 := splitSub_snd_length_le (M := M) olds 0
       have h2 := splitSub_snd_length_le (M := M) news 0
       omega)

/-- Draining a stream against an absent old side creates every item. -/
theorem diff_nil_left {M : Type} (s : List (DomItem M)) :
    diff [] s = s.map createPatch := by
  induction s with
  | nil => rw [diff]; rfl
  | cons n news ih => rw [diff, ih]; rfl

/-- Draining a stream against an absent new side removes every item. -/
theorem diff_nil_right {M : Type} (s : List (DomItem M)) :
    diff s [] = s.map removePatch := by
  induction s with
  | nil => rw [diff]; rfl
  | cons o olds ih =>
    cases o <;> (rw [diff, ih]; rfl)

/-- A patch op that builds up the new tree: a creation, a listener
installation, or the cursor pop between them. -/
def isCreationOp {M : Type} : Patch M → Bool
  | .createElement _ => true
  | .createText _ => true
  | .addListener _ _ => true
  | .up => true
  | _ => false

/-- A patch op that tears down the old tree: a removal or the cursor pop
between removals. -/
def isRemovalOp {M : Type} : Patch M → Bool
  | .removeElement => true
  | .removeText => true
  | .removeListener => true
  | .up => true
  | _ => false

theorem isCreationOp_createPatch {M : Type} (i : DomItem M) :
    isCreationOp (createPatch i) = true := by
  cases i <;> rfl

theorem isRemovalOp_removePatch {M : Type} (i : DomItem M) :
    isRemovalOp (removePatch i) = true := by
  cases i <;> rfl

/-- `struct App<Model, DomTree>` (`crate/src/lib.rs` lines 174–178): the
retained description, the mount element handle, and the model. -/
structure App (Mo T : Type) : Type where
  dom : T
  parent : Handle
  model : Mo

/-- The observable outcome of one attach/dispatch/detach pass: the
application state afterwards, the mount element the patch set was
applied to (`euca::patch`'s first argument), and the emitted patch
set. -/
structure PatchRun (M Mo T : Type) : Type where
  app : App Mo T
  appliedTo : Handle
  patches : List (Patch M)

/-- `fn attach` (`crate/src/lib.rs` lines 208–234): render the initial
model, build the `App` from the description, the mount and the model,
diff the description's stream against `iter::empty()` on the old side,
and apply the patch set to the mount.  The generic `Render`/`DomIter`
trait methods are passed as function arguments. -/
def attach {M Mo T : Type} (iter : T → List (DomItem M)) (render' : Mo → T)
    (parent : Handle) (model : Mo) : PatchRun M Mo T :=
  let dom := render' model
  let app : App Mo T := { dom := dom, parent := parent, model := model }
  let patch_set := diff [] (iter app.dom)
  { app := app, appliedTo := parent, patches := patch_set }

/-- `Dispatch::dispatch` (`crate/src/lib.rs` lines 185–205): update the
model with the message, render a new description from the updated model,
diff the new stream against the retained old stream, apply the patch set
to the mount, and finally replace the retained description with the new
one. -/
def dispatch {M Mo T : Type} (iter : T → List (DomItem M)) (render' : Mo → T)
    (upd : Mo → M → Mo) (app_rc : App Mo T) (msg : M) : PatchRun M Mo T :=
  let parent := app_rc.parent
  let model' := upd app_rc.model msg
  let new_dom := render' model'
  let patch_set := diff (iter app_rc.dom) (iter new_dom)
  { app := { dom := new_dom, parent := app_rc.parent, model := model' },
    appliedTo := parent, patches := patch_set }

/-- `App::detach` (`crate/src/lib.rs` lines 237–252): diff the retained
description's stream against `iter::empty()` on the new side and apply
the resulting removal patch set to the mount. -/
def App.detach {M Mo T : Type} (iter : T → List (DomItem M))
    (app_rc : App Mo T) : PatchRun M Mo T :=
  let parent := app_rc.parent
  let patch_set := diff (iter app_rc.dom) []
  { app := app_rc, appliedTo := parent, patches := patch_set }

theorem all_isCreationOp_map {M : Type} (s : List (DomItem M)) :
    (s.map createPatch).all isCreationOp = true := by
  induction s with
  | nil => rfl
  | cons i s ih => simp [List.all_cons, ih, isCreationOp_createPatch]

theorem all_isRemovalOp_map {M : Type} (s : List (DomItem M)) :
    (s.map removePatch).all isRemovalOp = true := by
  induction s with
  | nil => rfl
  | cons i s ih => simp [List.all_cons, ih, isRemovalOp_removePatch]

/-- The number of event bindings a description node carries
(`Dom.event` is an `Option`, so zero or one). -/
def Dom.eventCount {M : Type} (d : Dom M) : Nat :=
  d.event.toList.length

/-- The identity `wrap32 z = z` on the `i32` range. -/
theorem wrap32_eq_self (z : Int) (h1 : -2 ^ 31 ≤ z) (h2 : z < 2 ^ 31) :
    wrap32 z = z := by
  rw [wrap32]
  have h3 : (0 : Int) ≤ z + 2 ^ 31 := by omega
  have h4 : z + 2 ^ 31 < 2 ^ 32 := by omega
  rw [Int.emod_eq_of_lt h3 h4]
  omega

end Euca

namespace Euca

/-- C1: For every description node, `dom_iter` yields a pre-order item
stream in which the node's opener (Element or Text item) comes first,
then each of the node's event items in declaration order, then the items
of each child subtree recursively in declaration order, and finally
exactly one `Up` item for that node. -/
theorem c1_dom_iter_preorder {M : Type} (n : Node) (e : Option (Event M))
    (cs : List (Dom M)) :
    dom_iter (Dom.mk n e cs) =
      openerItem n :: (eventItems e ++ ((cs.map dom_iter).flatten ++ [DomItem.up])) := by
  rw [dom_iter, childIter_eq_join]

/-- C2: For every description, the item stream produced by `dom_iter` is
well-formed: it is a finite list in which the number of `Up` markers
equals the number of Element/Text openers, the stream nests properly
(every opener is closed by exactly one matching `Up`), and for an
element node the event items immediately follow the `Element` opener and
precede all child items. -/
theorem c2_stream_well_formed {M : Type} :
    (∀ d : Dom M, (dom_iter d).countP isUp = (dom_iter d).countP isOpener)
    ∧ (∀ d : Dom M, nestOk (dom_iter d) 0 = true)
    ∧ (∀ (name : String) (cell : Option Handle) (e : Option (Event M)) (cs : List (Dom M)),
        dom_iter (Dom.mk (Node.element name cell) e cs) =
          DomItem.element name (storageOf cell) ::
            (eventItems e ++ (childIter cs ++ [DomItem.up]))) := by
  refine ⟨fun d => countUp_dom_iter d, fun d => ?_, fun name cell e cs => ?_⟩
  · have h := nestOk_dom_iter d [] 0
    rw [List.append_nil] at h
    rw [h]
    rfl
  · rw [dom_iter]
    rfl

/-- C3: Attaching the typed-html counter application with model `0`
against an empty mount produces the patch set: create outer div, create
"+" button, add click listener, create text "+", up, up, create middle
div, create text "0", up, up, create "-" button, add click listener,
create text "-", up, up, up — and, equivalently, the initial render's
item stream is an outer div element enclosing the "+" button, the
counter div with text "0", and the "-" button. -/
theorem c3_initial_mount_patches (mount : Handle) :
    (attach dom_iter typedHtmlRender mount 0).patches =
      [Patch.createElement "div",
       Patch.createElement "button", Patch.addListener "click" Msg.Increment,
       Patch.createText "+", Patch.up, Patch.up,
       Patch.createElement "div", Patch.createText "0", Patch.up, Patch.up,
       Patch.createElement "button", Patch.addListener "click" Msg.Decrement,
       Patch.createText "-", Patch.up, Patch.up,
       Patch.up]
    ∧ dom_iter (typedHtmlRender 0) =
        DomItem.element "div" Storage.write ::
          ((dom_iter (button "+" Msg.Increment)
            ++ (dom_iter (counter 0) ++ dom_iter (button "-" Msg.Decrement)))
            ++ [DomItem.up]) := by
  constructor
  · show diff [] (dom_iter (typedHtmlRender 0)) = _
    rw [diff_nil_left]
    rfl
  · rfl

/-- C4 counterexample: the claim "for every n ≥ 0 an element description
with n event bindings can be constructed" fails at n = 2 — the `event`
field of `Dom` is an `Option<Event<Message>>`, so no description node
carries two event bindings. -/
theorem c4_two_event_bindings_impossible :
    ¬ ∃ d : Dom Msg, d.eventCount = 2 := by
  rintro ⟨⟨n, e, cs⟩, h⟩
  cases e <;> simp [Dom.eventCount, Dom.event] at h

/-- C4 (amended): a description element carries zero or one event
binding — never more — and zero or more child nodes: every node's event
count is at most one, an element with event count n is constructible
exactly for n ≤ 1, and an element with k children is constructible for
every k. -/
theorem c4_amended_event_capacity :
    (∀ d : Dom Msg, d.eventCount ≤ 1)
    ∧ (∀ n : Nat, n ≤ 1 →
        ∃ d : Dom Msg, d.node = Node.element "div" none ∧ d.eventCount = n)
    ∧ (∀ k : Nat,
        ∃ d : Dom Msg, d.node = Node.element "div" none ∧ d.children.length = k) := by
  refine ⟨?_, ?_, ?_⟩
  · rintro ⟨n, e, cs⟩
    cases e <;> simp [Dom.eventCount, Dom.event]
  · intro n hn
    interval_cases n
    · exact ⟨Dom.mk (Node.element "div" none) none [], rfl, rfl⟩
    · exact ⟨Dom.mk (Node.element "div" none)
        (some { trigger := "click", message := Msg.Increment, closure := none }) [],
        rfl, rfl⟩
  · intro k
    refine ⟨Dom.mk (Node.element "div" none) none
      (List.replicate k (Dom.mk (Node.text "" none) none [])), rfl, ?_⟩
    simp [Dom.children]

/-- C4 witness: the amended claim applied at n = 1. -/
theorem c4_amended_event_capacity_witness :
    1 ≤ 1 ∧ ∃ d : Dom Msg, d.node = Node.element "div" none ∧ d.eventCount = 1 :=
  ⟨by decide, c4_amended_event_capacity.2.1 1 (by decide)⟩

/-- C5 counterexample: "for every model value m, update(Increment)
changes the model from m to m+1" fails at m = i32::MAX = 2^31 − 1, where
the `i32` addition wraps instead of producing m+1. -/
theorem c5_increment_overflow_counterexample :
    ¬ update (2 ^ 31 - 1) Msg.Increment = (2 ^ 31 - 1) + 1 := by
  decide

/-- C5 (amended): for every in-range model value m with m < i32::MAX,
update(Increment) changes the model from m to m+1, and for every
in-range m with m > i32::MIN, update(Decrement) changes it to m−1; in
particular, from model 0 one Increment yields 1, one Decrement yields
−1, and three successive Increments yield 3. -/
theorem c5_amended_update_arithmetic :
    (∀ m : Int, -2 ^ 31 ≤ m → m < 2 ^ 31 - 1 → update m Msg.Increment = m + 1)
    ∧ (∀ m : Int, -2 ^ 31 < m → m < 2 ^ 31 → update m Msg.Decrement = m - 1)
    ∧ update 0 Msg.Increment = 1
    ∧ update 0 Msg.Decrement = -1
    ∧ update (update (update 0 Msg.Increment) Msg.Increment) Msg.Increment = 3 := by
  refine ⟨?_, ?_, by decide, by decide, by decide⟩
  · intro m h1 h2
    rw [update]
    exact wrap32_eq_self (m + 1) (by omega) (by omega)
  · intro m h1 h2
    rw [update]
    exact wrap32_eq_self (m - 1) (by omega) (by omega)

/-- C5 witness: the amended claim applied at m = 5. -/
theorem c5_amended_update_arithmetic_witness :
    update 5 Msg.Increment = 6 ∧ update 5 Msg.Decrement = 4 :=
  ⟨c5_amended_update_arithmetic.1 5 (by decide) (by decide),
   c5_amended_update_arithmetic.2.1 5 (by decide) (by decide)⟩

/-- C6: `dom_iter` builds a `Storage::Read` slot exactly when the
underlying cell holds a handle and a `Storage::Write` slot exactly when
it is empty; when the cell holds a handle, the take closure's
`take().unwrap()` succeeds (the `None` branch is unreachable) and leaves
the cell empty.  The last conjunct ties the slot to the stream: the
opener item `dom_iter` yields for a text node carries `storageOf` of its
cell. -/
theorem c6_storage_semantics :
    (∀ cell : Option Handle, storageOf cell = Storage.read ↔ cell.isSome)
    ∧ (∀ cell : Option Handle, storageOf cell = Storage.write ↔ cell.isNone)
    ∧ (∀ (cell : Option Handle) (h : Handle), cell = some h →
        takeUnwrap cell = some (h, none))
    ∧ (∀ (s : String) (cell : Option Handle) (e : Option (Event Msg)) (cs : List (Dom Msg)),
        (dom_iter (Dom.mk (Node.text s cell) e cs)).head? =
          some (DomItem.text s (storageOf cell))) := by
  refine ⟨fun cell => ?_, fun cell => ?_, fun cell h hc => ?_, fun s cell e cs => ?_⟩
  · cases cell <;> simp [storageOf]
  · cases cell <;> simp [storageOf]
  · subst hc
    rfl
  · rw [dom_iter]
    rfl

/-- C6 witness: the take closure applied to a cell holding handle 7. -/
theorem c6_storage_semantics_witness :
    takeUnwrap (some 7) = some (7, none) :=
  c6_storage_semantics.2.2.1 (some 7) 7 rfl

/-- C7: `attach(mount, initial_model)` renders the initial description,
diffs its item stream against the empty stream with empty as the old
side (so the patch set is pure creation), and applies the patch set to
the mount; `App::detach` diffs the retained description's stream against
the empty stream with empty as the new side (so the patch set is pure
removal) and applies it to the mount. -/
theorem c7_attach_detach_streams {M Mo T : Type} (iter : T → List (DomItem M))
    (render' : Mo → T) (parent : Handle) (model : Mo) (app_rc : App Mo T) :
    ((attach iter render' parent model).patches = diff [] (iter (render' model))
      ∧ (attach iter render' parent model).patches = (iter (render' model)).map createPatch
      ∧ ((attach iter render' parent model).patches.all isCreationOp) = true
      ∧ (attach iter render' parent model).appliedTo = parent
      ∧ (attach iter render' parent model).app.dom = render' model)
    ∧ ((App.detach iter app_rc).patches = diff (iter app_rc.dom) []
      ∧ (App.detach iter app_rc).patches = (iter app_rc.dom).map removePatch
      ∧ ((App.detach iter app_rc).patches.all isRemovalOp) = true
      ∧ (App.detach iter app_rc).appliedTo = app_rc.parent) := by
  refine ⟨⟨rfl, ?_, ?_, rfl, rfl⟩, ⟨rfl, ?_, ?_, rfl⟩⟩
  · show diff [] (iter (render' model)) = _
    rw [diff_nil_left]
  · show (diff [] (iter (render' model))).all isCreationOp = true
    rw [diff_nil_left]
    exact all_isCreationOp_map _
  · show diff (iter app_rc.dom) [] = _
    rw [diff_nil_right]
  · show (diff (iter app_rc.dom) []).all isRemovalOp = true
    rw [diff_nil_right]
    exact all_isRemovalOp_map _

/-- C8: for every message, the dispatcher delivers the message to the
model's update, re-renders a new description from the updated model,
diffs the new description's stream against the retained old
description's stream, applies the patch set against the mount, and
replaces the retained description with the new one. -/
theorem c8_dispatch_steps {M Mo T : Type} (iter : T → List (DomItem M))
    (render' : Mo → T) (upd : Mo → M → Mo) (app_rc : App Mo T) (msg : M) :
    (dispatch iter render' upd app_rc msg).app.model = upd app_rc.model msg
    ∧ (dispatch iter render' upd app_rc msg).app.dom = render' (upd app_rc.model msg)
    ∧ (dispatch iter render' upd app_rc msg).patches =
        diff (iter app_rc.dom) (iter (render' (upd app_rc.model msg)))
    ∧ (dispatch iter render' upd app_rc msg).appliedTo = app_rc.parent :=
  ⟨rfl, rfl, rfl, rfl⟩

/-- C9: iterating an ordered collection of descriptions (`DomVec`)
yields exactly the concatenation of the item streams of its elements in
order, with no enclosing opener or `Up` markers added around or between
the per-element streams. -/
theorem c9_domvec_concatenation {M : Type} (v : DomVec M) :
    v.dom_iter = (v.val.map dom_iter).flatten
    ∧ v.dom_iter = childIter v.val := by
  obtain ⟨l⟩ := v
  have h2 : DomVec.dom_iter ⟨l⟩ = childIter l := by
    rw [DomVec.dom_iter]
    induction l with
    | nil => rw [childIter]; rfl
    | cons c cs ih =>
      rw [childIter, ← ih]
      rfl
  exact ⟨by rw [h2, childIter_eq_join], h2⟩

/-- C10: the counter model is a 32-bit signed integer: away from the
bounds update is the mathematical successor/predecessor, while at
i32::MAX an Increment wraps modulo 2^32 (two's complement) instead of
yielding m+1, and symmetrically for Decrement at i32::MIN. -/
theorem c10_i32_wraparound :
    (∀ m : Int, -2 ^ 31 ≤ m → m < 2 ^ 31 - 1 → update m Msg.Increment = m + 1)
    ∧ (∀ m : Int, -2 ^ 31 < m → m < 2 ^ 31 → update m Msg.Decrement = m - 1)
    ∧ update (2 ^ 31 - 1) Msg.Increment = (2 ^ 31 - 1) + 1 - 2 ^ 32
    ∧ update (-2 ^ 31) Msg.Decrement = (-2 ^ 31) - 1 + 2 ^ 32 := by
  refine ⟨?_, ?_, by decide, by decide⟩
  · intro m h1 h2
    rw [update]
    exact wrap32_eq_self (m + 1) (by omega) (by omega)
  · intro m h1 h2
    rw [update]
    exact wrap32_eq_self (m - 1) (by omega) (by omega)

/-- C10 witness: the in-range conjuncts applied just below the bounds. -/
theorem c10_i32_wraparound_witness :
    update (2 ^ 31 - 2) Msg.Increment = 2 ^ 31 - 1
    ∧ update (-2 ^ 31 + 1) Msg.Decrement = -2 ^ 31 :=
  ⟨by rw [c10_i32_wraparound.1 (2 ^ 31 - 2) (by decide) (by decide)]; decide,
   by rw [c10_i32_wraparound.2.1 (-2 ^ 31 + 1) (by decide) (by decide)]; decide⟩

end Euca
